import Mathlib

/-!
# Verification of the SOPN document-parsing pipeline (YourNextRepresentative)

A shallow embedding of the core of the Statement-of-Persons-Nominated (SOPN)
parsing subsystem of the `edent/yournextrepresentative` repository, together
with theorems checking the repository's natural-language specification
against it.

The embedding covers:
* the text normalizer `clean_text` (`sopn_parsing/helpers/text_helpers.py`),
* the page-geometry model and heading extraction
  (`sopn_parsing/helpers/pdf_helpers.py`),
* the document segmenter and page-to-ballot matching (`match_all_pages`),
* the OCR job orchestrator (`TextractSOPNHelper.start_detection` /
  `update_job_status` in `sopn_parsing/helpers/extract_pages.py`),
* the upload form validation (`official_documents/forms.py`), and
* the bulk image-rotation command
  (`moderation_queue/management/commands/moderation_queue_rotate_images.py`).
-/

namespace YNR

/-! ## Text Normalizer (`clean_text`)

Modelled from the spec: `sopn_parsing/helpers/text_helpers.py` is not part of
the provided sources, only its tests; `clean_text` is reconstructed from the
specification, §4.1: lower-case the input, strip all digit characters, strip
all punctuation/symbol characters, collapse consecutive whitespace (including
newlines) to single spaces, and trim leading/trailing whitespace.  Letters
are modelled as ASCII letters (`Char.isAlpha`). -/

/-- A character survives the punctuation/digit stripping pass exactly when it
is a letter or whitespace: digits and punctuation/symbol characters are
removed. -/
def keepChar (c : Char) : Bool :=
  c.isAlpha || c.isWhitespace

/-- Canonicalise every whitespace character (newline, tab, ...) to a plain
space, so that later collapsing treats them uniformly. -/
def toSpace (c : Char) : Char :=
  if c.isWhitespace then ' ' else c

/-- Collapse every run of consecutive spaces to a single space. -/
def collapseSpaces : List Char → List Char
  | [] => []
  | [a] => [a]
  | a :: b :: rest =>
    if a == ' ' && b == ' ' then collapseSpaces (b :: rest)
    else a :: collapseSpaces (b :: rest)

/-- Remove trailing spaces. -/
def trimTrailing (l : List Char) : List Char :=
  (l.reverse.dropWhile (fun c => c == ' ')).reverse

/-- Remove leading and trailing spaces. -/
def trimSpaces (l : List Char) : List Char :=
  trimTrailing (l.dropWhile (fun c => c == ' '))

/-- The normalization pipeline on character lists: lower-case, drop digits
and punctuation/symbols, canonicalise whitespace, collapse space runs, trim. -/
def cleanChars (l : List Char) : List Char :=
  trimSpaces (collapseSpaces (((l.map Char.toLower).filter keepChar).map toSpace))

/-- `clean_text`, the Text Normalizer.  Modelled from the spec (§4.1): the
implementation in `sopn_parsing/helpers/text_helpers.py` is not among the
provided sources. -/
def clean_text (s : String) : String :=
  String.mk (cleanChars s.data)

/-! ### Character-level lemmas -/

/-- `Char.toLower` is idempotent: lowering moves an upper-case code point
into `97..122`, outside the upper-case band `65..90`. -/
theorem char_toNat_ofNat {n : Nat} (h : n.isValidChar) : (Char.ofNat n).toNat = n := by
  rw [Char.ofNat, dif_pos h]
  rfl

theorem toLower_of_not_upper {c : Char} (h : ¬(c.toNat ≥ 65 ∧ c.toNat ≤ 90)) :
    c.toLower = c := by
  simp only [Char.toLower]
  exact if_neg h

theorem toLower_toLower (c : Char) : c.toLower.toLower = c.toLower := by
  by_cases h : c.toNat ≥ 65 ∧ c.toNat ≤ 90
  · have h1 : c.toLower = Char.ofNat (c.toNat + 32) := by
      simp only [Char.toLower]
      exact if_pos h
    have h2 : c.toLower.toNat = c.toNat + 32 := by
      rw [h1, char_toNat_ofNat (Or.inl (by omega))]
    exact toLower_of_not_upper (by omega)
  · rw [toLower_of_not_upper h, toLower_of_not_upper h]

/-- The invariant satisfied by every character surviving the cleaning
pipeline: it is a space, or a non-whitespace kept character fixed by
lower-casing. -/
def goodChar (c : Char) : Prop :=
  c = ' ' ∨ (c.isWhitespace = false ∧ keepChar c = true ∧ c.toLower = c)

theorem goodChar.lower {c : Char} (h : goodChar c) : c.toLower = c := by
  rcases h with rfl | ⟨_, _, hl⟩
  · decide
  · exact hl

theorem goodChar.keep {c : Char} (h : goodChar c) : keepChar c = true := by
  rcases h with rfl | ⟨_, hk, _⟩
  · decide
  · exact hk

theorem goodChar.space {c : Char} (h : goodChar c) : toSpace c = c := by
  rcases h with rfl | ⟨hw, _, _⟩
  · decide
  · simp [toSpace, hw]

theorem goodChar_of_mem_stage {l : List Char} {c : Char}
    (hc : c ∈ ((l.map Char.toLower).filter keepChar).map toSpace) : goodChar c := by
  rcases List.mem_map.mp hc with ⟨d, hd, rfl⟩
  have hdk : keepChar d = true := (List.mem_filter.mp hd).2
  have hdl : d ∈ l.map Char.toLower := (List.mem_filter.mp hd).1
  rcases List.mem_map.mp hdl with ⟨e, _, rfl⟩
  by_cases hw : (Char.toLower e).isWhitespace
  · left
    simp [toSpace, hw]
  · have hts : toSpace (Char.toLower e) = Char.toLower e := by
      simp [toSpace, hw]
    rw [hts]
    exact Or.inr ⟨by simpa using hw, hdk, toLower_toLower e⟩

/-! ### Structural lemmas on the whitespace passes -/

theorem collapseSpaces_sublist : ∀ l : List Char, List.Sublist (collapseSpaces l) l := by
  intro l
  induction l using collapseSpaces.induct with
  | case1 => exact .refl _
  | case2 a => exact .refl _
  | case3 a b rest hcond ih =>
    rw [collapseSpaces, if_pos hcond]
    exact ih.trans (List.sublist_cons_self _ _)
  | case4 a b rest hcond ih =>
    rw [collapseSpaces, if_neg hcond]
    exact ih.cons₂ a

theorem trimTrailing_prefix_self (l : List Char) : trimTrailing l <+: l := by
  rcases List.dropWhile_suffix (l := l.reverse) (fun c => c == ' ') with ⟨t, ht⟩
  refine ⟨t.reverse, ?_⟩
  rw [trimTrailing, ← List.reverse_append, ht, List.reverse_reverse]

theorem trimSpaces_sublist (l : List Char) : List.Sublist (trimSpaces l) l :=
  ((trimTrailing_prefix_self _).sublist).trans (List.dropWhile_sublist _)

theorem mem_cleanChars_good {l : List Char} {c : Char} (hc : c ∈ cleanChars l) :
    goodChar c :=
  goodChar_of_mem_stage ((collapseSpaces_sublist _).subset ((trimSpaces_sublist _).subset hc))

/-- No two adjacent characters of the list are both spaces. -/
def noDoubleSpace : List Char → Bool
  | a :: b :: rest => !(a == ' ' && b == ' ') && noDoubleSpace (b :: rest)
  | _ => true

theorem noDoubleSpace_tail {a : Char} {l : List Char}
    (h : noDoubleSpace (a :: l) = true) : noDoubleSpace l = true := by
  cases l with
  | nil => rfl
  | cons b rest => exact (Bool.and_eq_true _ _ |>.mp h).2

theorem noDoubleSpace_cons {a : Char} {t : List Char} (ht : noDoubleSpace t = true)
    (h : ¬(a = ' ' ∧ t.head? = some ' ')) : noDoubleSpace (a :: t) = true := by
  cases t with
  | nil => rfl
  | cons b rest =>
    rw [noDoubleSpace, Bool.and_eq_true]
    refine ⟨?_, ht⟩
    simp only [List.head?_cons] at h
    simp only [Bool.not_eq_true', Bool.and_eq_false_iff, beq_eq_false_iff_ne]
    by_cases ha : a = ' '
    · right
      exact fun hb => h ⟨ha, by rw [hb]⟩
    · left
      exact ha

theorem collapseSpaces_head_space : ∀ l : List Char,
    (collapseSpaces l).head? = some ' ' → l.head? = some ' ' := by
  intro l
  induction l using collapseSpaces.induct with
  | case1 => exact fun h => h
  | case2 a => exact fun h => h
  | case3 a b rest hcond ih =>
    intro h
    rw [collapseSpaces, if_pos hcond] at h
    have ha : a = ' ' := by
      have := (Bool.and_eq_true _ _).mp hcond |>.1
      exact eq_of_beq this
    rw [List.head?_cons, ha]
  | case4 a b rest hcond ih =>
    intro h
    rw [collapseSpaces, if_neg hcond] at h
    exact h

theorem noDoubleSpace_collapseSpaces : ∀ l : List Char,
    noDoubleSpace (collapseSpaces l) = true := by
  intro l
  induction l using collapseSpaces.induct with
  | case1 => rfl
  | case2 a => rfl
  | case3 a b rest hcond ih =>
    rw [collapseSpaces, if_pos hcond]
    exact ih
  | case4 a b rest hcond ih =>
    rw [collapseSpaces, if_neg hcond]
    refine noDoubleSpace_cons ih ?_
    rintro ⟨ha, hh⟩
    have hb : (b :: rest).head? = some ' ' := collapseSpaces_head_space _ hh
    rw [List.head?_cons, Option.some.injEq] at hb
    exact hcond (by rw [ha, hb]; rfl)

theorem collapseSpaces_eq_self : ∀ {l : List Char}, noDoubleSpace l = true →
    collapseSpaces l = l := by
  intro l
  induction l using collapseSpaces.induct with
  | case1 => intro _; rfl
  | case2 a => intro _; rfl
  | case3 a b rest hcond ih =>
    intro h
    rw [noDoubleSpace, Bool.and_eq_true, Bool.not_eq_true', hcond] at h
    exact Bool.noConfusion h.1
  | case4 a b rest hcond ih =>
    intro h
    rw [collapseSpaces, if_neg hcond, ih (noDoubleSpace_tail h)]

theorem noDoubleSpace_append_left : ∀ (l₁ l₂ : List Char),
    noDoubleSpace (l₁ ++ l₂) = true → noDoubleSpace l₁ = true
  | [], _, _ => rfl
  | [_], _, _ => rfl
  | a :: b :: rest, l₂, h => by
    rw [List.cons_append, List.cons_append, noDoubleSpace, Bool.and_eq_true] at h
    rw [noDoubleSpace, Bool.and_eq_true]
    exact ⟨h.1, noDoubleSpace_append_left (b :: rest) l₂ (by rw [List.cons_append]; exact h.2)⟩

theorem noDoubleSpace_append_right : ∀ (l₁ l₂ : List Char),
    noDoubleSpace (l₁ ++ l₂) = true → noDoubleSpace l₂ = true
  | [], _, h => h
  | _ :: rest, l₂, h =>
    noDoubleSpace_append_right rest l₂ (noDoubleSpace_tail (by rwa [List.cons_append] at h))

theorem noDoubleSpace_of_suffix {l₁ l : List Char} (h : l₁ <:+ l)
    (hl : noDoubleSpace l = true) : noDoubleSpace l₁ = true := by
  rcases h with ⟨t, rfl⟩
  exact noDoubleSpace_append_right t l₁ hl

theorem noDoubleSpace_of_prefix {l₁ l : List Char} (h : l₁ <+: l)
    (hl : noDoubleSpace l = true) : noDoubleSpace l₁ = true := by
  rcases h with ⟨t, rfl⟩
  exact noDoubleSpace_append_left l₁ t hl

theorem noDoubleSpace_trimSpaces {l : List Char} (h : noDoubleSpace l = true) :
    noDoubleSpace (trimSpaces l) = true :=
  noDoubleSpace_of_prefix (trimTrailing_prefix_self _)
    (noDoubleSpace_of_suffix (List.dropWhile_suffix _) h)

theorem noDoubleSpace_cleanChars (l : List Char) : noDoubleSpace (cleanChars l) = true :=
  noDoubleSpace_trimSpaces (noDoubleSpace_collapseSpaces _)

/-! ### Head/last facts for the trim passes -/

theorem head?_dropWhile_space : ∀ l : List Char,
    (l.dropWhile (fun c => c == ' ')).head? ≠ some ' '
  | [] => by simp
  | a :: rest => by
    rw [List.dropWhile_cons]
    by_cases ha : a = ' '
    · rw [if_pos (by rw [ha]; rfl)]
      exact head?_dropWhile_space rest
    · rw [if_neg (by simpa using ha)]
      simpa using ha

theorem head?_mono {l₁ l : List Char} {c : Char} (h : l₁ <+: l)
    (hc : l₁.head? = some c) : l.head? = some c := by
  rcases h with ⟨t, rfl⟩
  cases l₁ with
  | nil => simp at hc
  | cons a rest => simpa using hc

theorem head?_trimSpaces (l : List Char) : (trimSpaces l).head? ≠ some ' ' := by
  intro h
  exact head?_dropWhile_space l
    (head?_mono (trimTrailing_prefix_self _) h)

theorem getLast?_trimTrailing (l : List Char) : (trimTrailing l).getLast? ≠ some ' ' := by
  rw [List.getLast?_eq_head?_reverse]
  simp only [trimTrailing, List.reverse_reverse]
  exact head?_dropWhile_space _

theorem getLast?_trimSpaces (l : List Char) : (trimSpaces l).getLast? ≠ some ' ' :=
  getLast?_trimTrailing _

theorem dropWhile_space_eq_self {l : List Char} (h : l.head? ≠ some ' ') :
    l.dropWhile (fun c => c == ' ') = l := by
  cases l with
  | nil => rfl
  | cons a rest =>
    rw [List.dropWhile_cons, if_neg]
    simp only [List.head?_cons, ne_eq, Option.some.injEq] at h
    simpa using h

theorem trimTrailing_eq_self {l : List Char} (h : l.getLast? ≠ some ' ') :
    trimTrailing l = l := by
  rw [List.getLast?_eq_head?_reverse] at h
  rw [trimTrailing, dropWhile_space_eq_self h, List.reverse_reverse]

theorem trimSpaces_eq_self {l : List Char} (h1 : l.head? ≠ some ' ')
    (h2 : l.getLast? ≠ some ' ') : trimSpaces l = l := by
  rw [trimSpaces, dropWhile_space_eq_self h1, trimTrailing_eq_self h2]

/-! ### Idempotence of the pipeline -/

theorem map_toLower_cleanChars (l : List Char) :
    (cleanChars l).map Char.toLower = cleanChars l := by
  rw [List.map_congr_left (fun c hc => (mem_cleanChars_good hc).lower)]
  exact List.map_id _

theorem filter_keep_cleanChars (l : List Char) :
    (cleanChars l).filter keepChar = cleanChars l :=
  List.filter_eq_self.mpr fun _ hc => (mem_cleanChars_good hc).keep

theorem map_toSpace_cleanChars (l : List Char) :
    (cleanChars l).map toSpace = cleanChars l := by
  rw [List.map_congr_left (fun c hc => (mem_cleanChars_good hc).space)]
  exact List.map_id _

theorem cleanChars_idem (l : List Char) : cleanChars (cleanChars l) = cleanChars l := by
  conv_lhs => rw [cleanChars]
  rw [map_toLower_cleanChars, filter_keep_cleanChars, map_toSpace_cleanChars,
    collapseSpaces_eq_self (noDoubleSpace_cleanChars l)]
  exact trimSpaces_eq_self (head?_trimSpaces _) (getLast?_trimSpaces _)

theorem keepChar_isDigit {c : Char} (h : keepChar c = true) : c.isDigit = false := by
  by_contra hd
  rw [Bool.not_eq_false, Char.isDigit] at hd
  simp only [Bool.and_eq_true, decide_eq_true_eq] at hd
  rw [keepChar, Bool.or_eq_true] at h
  rcases h with ha | hw
  · rw [Char.isAlpha, Bool.or_eq_true] at ha
    rcases ha with hu | hl
    · rw [Char.isUpper] at hu
      simp only [Bool.and_eq_true, decide_eq_true_eq] at hu
      exact absurd (UInt32.le_trans hu.1 hd.2) (by decide)
    · rw [Char.isLower] at hl
      simp only [Bool.and_eq_true, decide_eq_true_eq] at hl
      exact absurd (UInt32.le_trans hl.1 hd.2) (by decide)
  · rw [Char.isWhitespace] at hw
    simp only [Bool.or_eq_true, decide_eq_true_eq] at hw
    rcases hw with ((rfl | rfl) | rfl) | rfl <;> exact absurd hd (by decide)

theorem goodChar.ws_eq_space {c : Char} (h : goodChar c) (hw : c.isWhitespace = true) :
    c = ' ' := by
  rcases h with rfl | ⟨hnw, _, _⟩
  · rfl
  · rw [hnw] at hw
    exact Bool.noConfusion hw

/-- C5: the normalizer lower-cases (every output character is fixed by
`Char.toLower`), removes all digits, removes punctuation/symbol characters
(every output character is a letter or whitespace), canonicalises and
collapses whitespace (all whitespace in the output is a single space, never
doubled), trims both ends, and consequently the variants `"name5"`,
`"name 5"` and `"name\n5"` of the test strings all normalize to the
identical result. -/
theorem clean_text_normalizes_digit_variants :
    (∀ s : String, ∀ c ∈ (clean_text s).data, c.toLower = c) ∧
    (∀ s : String, ∀ c ∈ (clean_text s).data, c.isDigit = false) ∧
    (∀ s : String, ∀ c ∈ (clean_text s).data, keepChar c = true) ∧
    (∀ s : String, ∀ c ∈ (clean_text s).data, c.isWhitespace = true → c = ' ') ∧
    (∀ s : String, noDoubleSpace (clean_text s).data = true) ∧
    (∀ s : String, (clean_text s).data.head? ≠ some ' ') ∧
    (∀ s : String, (clean_text s).data.getLast? ≠ some ' ') ∧
    (clean_text "enwr ymgeisydd candidate name5" = "enwr ymgeisydd candidate name" ∧
      clean_text "enwr ymgeisydd candidate name 5" = "enwr ymgeisydd candidate name" ∧
      clean_text "enwr ymgeisydd candidate name\n5" = "enwr ymgeisydd candidate name") := by
  refine ⟨fun s c hc => (mem_cleanChars_good hc).lower,
    fun s c hc => keepChar_isDigit (mem_cleanChars_good hc).keep,
    fun s c hc => (mem_cleanChars_good hc).keep,
    fun s c hc => (mem_cleanChars_good hc).ws_eq_space,
    fun s => noDoubleSpace_cleanChars _,
    fun s => head?_trimSpaces _,
    fun s => getLast?_trimSpaces _,
    by decide, by decide, by decide⟩

/-- C6: `clean_text` is idempotent: applying the normalizer twice gives the
same result as applying it once, for every input string. -/
theorem clean_text_idempotent (s : String) :
    clean_text (clean_text s) = clean_text s := by
  simp only [clean_text]
  exact congrArg String.mk (cleanChars_idem s.data)

/-! ## Page Geometry Model

Modelled from the spec (§4.2): `sopn_parsing/helpers/pdf_helpers.py` is not
among the provided sources.  A page holds positioned text fragments; its
heading is the normalized-token set of the fragments whose bounding box top
lies in the top-of-page band; a page is blank when it has fewer than a
minimum threshold of non-trivial normalized tokens; heading extraction on a
page with zero text fragments raises `NoTextInDocumentError`. -/

/-- A positioned unit of recognized text: raw text plus the vertical (top)
coordinate of its bounding box in the normalized `0..1` coordinate space. -/
structure TextFragment where
  text : String
  top : ℚ
deriving DecidableEq

/-- Error raised when heading extraction is attempted on a page containing
zero text fragments (`sopn_parsing/helpers/text_helpers.py`). -/
inductive NoTextInDocumentError where
  | noTextInDocument
deriving DecidableEq

/-- A page of a document: 1-based index and its positioned text fragments. -/
structure Page where
  index : Nat
  fragments : List TextFragment
deriving DecidableEq

/-- Modelled from the spec: the fixed fraction of the page height forming
the top-of-page heading band; the exact constant is an open question in the
spec (§9), fixed here as a representative value. -/
def HEADING_BAND_FRACTION : ℚ := 1/4

/-- Modelled from the spec: the minimum number of non-trivial normalized
tokens below which a page is marked blank (§4.2); the exact threshold is
tuned empirically in the source, fixed here as a representative value. -/
def MIN_MEANINGFUL_TOKENS : Nat := 3

/-- Split a character list on spaces, dropping empty pieces; `cur` is the
reversed current token. -/
def splitTokensAux (cur : List Char) : List Char → List (List Char)
  | [] => if cur.isEmpty then [] else [cur.reverse]
  | c :: rest =>
    if c == ' ' then
      if cur.isEmpty then splitTokensAux [] rest
      else cur.reverse :: splitTokensAux [] rest
    else splitTokensAux (c :: cur) rest

/-- The normalized tokens of a text fragment: the cleaned text split on
spaces, dropping empty pieces. -/
def fragmentTokens (f : TextFragment) : List String :=
  (splitTokensAux [] (clean_text f.text).data).map String.mk

/-- All normalized tokens appearing on a page. -/
def pageTokens (p : Page) : List String :=
  p.fragments.flatMap fragmentTokens

/-- A token with at least two characters counts as non-trivial. -/
def nonTrivialToken (t : String) : Bool :=
  t.length > 1

/-- A page is blank when it carries fewer than the minimum threshold of
non-trivial normalized tokens. -/
def page_is_blank (p : Page) : Bool :=
  ((pageTokens p).filter nonTrivialToken).length < MIN_MEANINGFUL_TOKENS

/-- The heading of a page: the set of normalized tokens of the fragments
whose top coordinate lies within the heading band.  Raises
`NoTextInDocumentError` when the page has no text fragments at all. -/
def pageHeading (p : Page) : Except NoTextInDocumentError (Finset String) :=
  if p.fragments.isEmpty then
    Except.error NoTextInDocumentError.noTextInDocument
  else
    Except.ok
      (((p.fragments.filter (fun f => f.top ≤ HEADING_BAND_FRACTION)).flatMap
        fragmentTokens).toFinset)

/-- C7: computing the heading of a page with zero text fragments raises
`NoTextInDocumentError`, whereas a page with some fragments but fewer than
the minimum threshold of non-trivial normalized tokens is marked blank and
its heading computation raises no error. -/
theorem pageHeading_empty_errors_blank_ok (p q : Page)
    (hp : p.fragments = [])
    (hq : q.fragments ≠ [])
    (hqcount : ((pageTokens q).filter nonTrivialToken).length < MIN_MEANINGFUL_TOKENS) :
    pageHeading p = Except.error NoTextInDocumentError.noTextInDocument ∧
    page_is_blank q = true ∧
    ∃ h, pageHeading q = Except.ok h := by
  refine ⟨?_, ?_, ?_⟩
  · rw [pageHeading, if_pos (by rw [hp]; rfl)]
  · rw [page_is_blank]
    simpa using hqcount
  · rw [pageHeading, if_neg (by simpa using hq)]
    exact ⟨_, rfl⟩

/-! ## Document Segmenter

Modelled from the spec (§4.3): `sopn_parsing/helpers/pdf_helpers.py`
(`SOPNDocument.match_all_pages`) is not among the provided sources.  Pages
are iterated in order comparing each page's heading set to the previous
page's; a blank page or a sufficiently similar heading continues the current
group, otherwise a new group starts.  With exactly one ballot all pages are
assigned to it (`relevant_pages = "all"`); with several ballots the groups
are assigned in page order against the ballots sorted by ballot identifier;
a group/ballot count mismatch leaves the assignment unset. -/

/-- A page as seen by the segmenter: its 1-based index, heading fingerprint
and blank flag. -/
structure SegPage where
  idx : Nat
  heading : Finset String
  blank : Bool
deriving DecidableEq

/-- Modelled from the spec: two heading sets are similar when their set
overlap ratio lies above a fixed threshold (1/2 here; the exact constant is
an open question in the spec §9). -/
def similarHeadings (a b : Finset String) : Bool :=
  2 * (a ∩ b).card > (a ∪ b).card

/-- Page `cur` continues the group of the preceding page `prev` when it is
blank (scanner-inserted separator pages tolerated) or its heading is similar
to the preceding page's heading. -/
def continuesGroup (prev cur : SegPage) : Bool :=
  cur.blank || similarHeadings prev.heading cur.heading

/-- Group the remaining pages, `cur` being the reversed current group and
`prev` the page preceding the remaining ones. -/
def segmentAux (cur : List SegPage) (prev : SegPage) : List SegPage → List (List SegPage)
  | [] => [cur.reverse]
  | q :: rest =>
    if continuesGroup prev q then segmentAux (q :: cur) q rest
    else cur.reverse :: segmentAux [q] q rest

/-- Partition the ordered pages of a document into contiguous groups at
heading changes. -/
def segmentPages : List SegPage → List (List SegPage)
  | [] => []
  | p :: rest => segmentAux [p] p rest

/-- The facts the segmenter needs about a ballot: its identifier and the
`relevant_pages` value written onto its official document record. -/
structure Ballot where
  ballot_paper_id : String
  relevant_pages : String
deriving DecidableEq

/-- Lexicographic comparison of character lists by code point. -/
def charsLt : List Char → List Char → Bool
  | [], [] => false
  | [], _ :: _ => true
  | _ :: _, [] => false
  | a :: as, b :: bs =>
    if a.val < b.val then true
    else if b.val < a.val then false
    else charsLt as bs

/-- Lexicographic order on ballot identifiers (the stable sort key). -/
def ballotIdLt (a b : Ballot) : Bool :=
  charsLt a.ballot_paper_id.data b.ballot_paper_id.data

/-- Insert a ballot into a list sorted by ballot identifier. -/
def insertBallot (b : Ballot) : List Ballot → List Ballot
  | [] => [b]
  | c :: rest =>
    if ballotIdLt b c then b :: c :: rest
    else c :: insertBallot b rest

/-- Sort ballots by their stable key, the ballot identifier. -/
def sortBallots (ballots : List Ballot) : List Ballot :=
  ballots.foldr insertBallot []

/-- The comma-separated 1-based page-number string of a group. -/
def joinPages (g : List SegPage) : String :=
  String.intercalate "," (g.map (fun p => toString p.idx))

/-- `match_all_pages`, the page-to-ballot assignment.  Modelled from the
spec (§4.3): one ballot gets `"all"`; otherwise groups are zipped in page
order against the ballots sorted by identifier, and a group/ballot count
mismatch leaves every assignment unchanged. -/
def match_all_pages (pages : List SegPage) : List Ballot → List Ballot
  | [b] => [{ b with relevant_pages := "all" }]
  | ballots =>
    let groups := segmentPages pages
    if groups.length = ballots.length then
      List.zipWith (fun b g => { b with relevant_pages := joinPages g })
        (sortBallots ballots) groups
    else ballots

theorem segmentAux_const_heading {H : Finset String} (hH : H.Nonempty) :
    ∀ (rest cur : List SegPage) (prev : SegPage), prev.heading = H →
      (∀ p ∈ rest, p.heading = H) →
      segmentAux cur prev rest = [cur.reverse ++ rest]
  | [], cur, prev, _, _ => by simp [segmentAux]
  | q :: rest, cur, prev, hprev, hrest => by
    have hq : q.heading = H := hrest q (by simp)
    have hsim : continuesGroup prev q = true := by
      rw [continuesGroup, Bool.or_eq_true]
      right
      rw [similarHeadings, hprev, hq]
      simp only [Finset.inter_self, Finset.union_self, decide_eq_true_eq]
      have := Finset.card_pos.mpr hH
      omega
    rw [segmentAux, if_pos hsim,
      segmentAux_const_heading hH rest (q :: cur) q hq
        (fun p hp => hrest p (List.mem_cons_of_mem _ hp))]
    simp

theorem segmentPages_const_heading {pages : List SegPage} {H : Finset String}
    (hne : pages ≠ []) (hH : H.Nonempty) (hall : ∀ p ∈ pages, p.heading = H) :
    segmentPages pages = [pages] := by
  cases pages with
  | nil => exact absurd rfl hne
  | cons p rest =>
    rw [segmentPages, segmentAux_const_heading hH rest [p] p (hall p (by simp))
      (fun q hq => hall q (List.mem_cons_of_mem _ hq))]
    rfl

/-- C4: a document with exactly one ballot assigns `relevant_pages = "all"`
to it; and a multi-page document all of whose consecutive pages share one
identical (nonempty) heading is segmented into a single group, not two. -/
theorem match_single_ballot_and_identical_headers
    (pages pages' : List SegPage) (b : Ballot) (H : Finset String)
    (hne : pages' ≠ []) (hH : H.Nonempty) (hall : ∀ p ∈ pages', p.heading = H) :
    match_all_pages pages [b] = [{ b with relevant_pages := "all" }] ∧
    segmentPages pages' = [pages'] :=
  ⟨rfl, segmentPages_const_heading hne hH hall⟩

/-- Witness for C4: a one-ballot document, and a two-page document with
identical nonempty headings collapsing to one group. -/
theorem match_single_ballot_and_identical_headers_witness :
    ([SegPage.mk 1 {"x"} false, SegPage.mk 2 {"x"} false] : List SegPage) ≠ [] ∧
    ({"x"} : Finset String).Nonempty ∧
    (∀ p ∈ ([SegPage.mk 1 {"x"} false, SegPage.mk 2 {"x"} false] : List SegPage),
      p.heading = {"x"}) ∧
    (match_all_pages [SegPage.mk 1 {"x"} false] [Ballot.mk "local.stroud.berkeley-vale.by.2019-02-28" ""] =
      [Ballot.mk "local.stroud.berkeley-vale.by.2019-02-28" "all"] ∧
    segmentPages [SegPage.mk 1 {"x"} false, SegPage.mk 2 {"x"} false] =
      [[SegPage.mk 1 {"x"} false, SegPage.mk 2 {"x"} false]]) :=
  ⟨by decide, ⟨"x", by decide⟩, by decide,
    match_single_ballot_and_identical_headers
      [SegPage.mk 1 {"x"} false]
      [SegPage.mk 1 {"x"} false, SegPage.mk 2 {"x"} false]
      (Ballot.mk "local.stroud.berkeley-vale.by.2019-02-28" "")
      ({"x"} : Finset String)
      (by decide) ⟨"x", by decide⟩ (by decide)⟩

/-- C3: for a 9-page document shared by exactly two ballots whose pages
segment into groups of 4 and 5 pages, `match_all_pages` assigns
`"1,2,3,4"` to `nia.mid-ulster.2016-05-05` and `"5,6,7,8,9"` to
`nia.north-antrim.2016-05-05`, the groups being zipped in page order against
the ballots sorted by their identifier — whichever order the ballots are
supplied in. -/
theorem match_multipage_two_ballots
    (pages g1 g2 : List SegPage) (b1 b2 : Ballot)
    (hseg : segmentPages pages = [g1, g2])
    (hg1 : g1.map SegPage.idx = [1, 2, 3, 4])
    (hg2 : g2.map SegPage.idx = [5, 6, 7, 8, 9])
    (hb1 : b1.ballot_paper_id = "nia.mid-ulster.2016-05-05")
    (hb2 : b2.ballot_paper_id = "nia.north-antrim.2016-05-05") :
    match_all_pages pages [b1, b2] =
      [{ b1 with relevant_pages := "1,2,3,4" }, { b2 with relevant_pages := "5,6,7,8,9" }] ∧
    match_all_pages pages [b2, b1] =
      [{ b1 with relevant_pages := "1,2,3,4" }, { b2 with relevant_pages := "5,6,7,8,9" }] := by
  have hj1 : joinPages g1 = "1,2,3,4" := by
    rw [joinPages,
      show (g1.map fun p => toString p.idx) = (g1.map SegPage.idx).map toString from by
        rw [List.map_map]; rfl,
      hg1]
    rfl
  have hj2 : joinPages g2 = "5,6,7,8,9" := by
    rw [joinPages,
      show (g2.map fun p => toString p.idx) = (g2.map SegPage.idx).map toString from by
        rw [List.map_map]; rfl,
      hg2]
    rfl
  have hlt : ballotIdLt b1 b2 = true := by
    rw [ballotIdLt, hb1, hb2]; decide
  have hnlt : ballotIdLt b2 b1 = false := by
    rw [ballotIdLt, hb1, hb2]; decide
  have hsort1 : sortBallots [b1, b2] = [b1, b2] := by
    simp only [sortBallots, List.foldr, insertBallot]
    rw [if_pos (by rw [hlt])]
  have hsort2 : sortBallots [b2, b1] = [b1, b2] := by
    simp only [sortBallots, List.foldr, insertBallot]
    rw [if_neg (by rw [hnlt]; exact Bool.false_ne_true)]
  constructor
  · rw [show match_all_pages pages [b1, b2] =
        (if (segmentPages pages).length = ([b1, b2] : List Ballot).length then
          List.zipWith (fun b g => { b with relevant_pages := joinPages g })
            (sortBallots [b1, b2]) (segmentPages pages)
        else [b1, b2]) from rfl,
      hseg, hsort1,
      if_pos (show ([g1, g2] : List (List SegPage)).length = ([b1, b2] : List Ballot).length from rfl)]
    simp only [List.zipWith, hj1, hj2]
  · rw [show match_all_pages pages [b2, b1] =
        (if (segmentPages pages).length = ([b2, b1] : List Ballot).length then
          List.zipWith (fun b g => { b with relevant_pages := joinPages g })
            (sortBallots [b2, b1]) (segmentPages pages)
        else [b2, b1]) from rfl,
      hseg, hsort2,
      if_pos (show ([g1, g2] : List (List SegPage)).length = ([b2, b1] : List Ballot).length from rfl)]
    simp only [List.zipWith, hj1, hj2]

/-- A concrete nine-page document used as a witness input: four pages whose
heading is `{"x"}` followed by five pages whose heading is `{"y"}`. -/
def ninePagesExample : List SegPage :=
  [SegPage.mk 1 {"x"} false, SegPage.mk 2 {"x"} false, SegPage.mk 3 {"x"} false,
   SegPage.mk 4 {"x"} false, SegPage.mk 5 {"y"} false, SegPage.mk 6 {"y"} false,
   SegPage.mk 7 {"y"} false, SegPage.mk 8 {"y"} false, SegPage.mk 9 {"y"} false]

/-- The first four pages of `ninePagesExample`. -/
def midUlsterGroup : List SegPage := ninePagesExample.take 4

/-- The last five pages of `ninePagesExample`. -/
def northAntrimGroup : List SegPage := ninePagesExample.drop 4

/-- Witness for C3: the concrete nine-page two-ballot scenario. -/
theorem match_multipage_two_ballots_witness :
    segmentPages ninePagesExample = [midUlsterGroup, northAntrimGroup] ∧
    midUlsterGroup.map SegPage.idx = [1, 2, 3, 4] ∧
    northAntrimGroup.map SegPage.idx = [5, 6, 7, 8, 9] ∧
    (match_all_pages ninePagesExample
        [Ballot.mk "nia.mid-ulster.2016-05-05" "", Ballot.mk "nia.north-antrim.2016-05-05" ""] =
      [Ballot.mk "nia.mid-ulster.2016-05-05" "1,2,3,4",
       Ballot.mk "nia.north-antrim.2016-05-05" "5,6,7,8,9"] ∧
    match_all_pages ninePagesExample
        [Ballot.mk "nia.north-antrim.2016-05-05" "", Ballot.mk "nia.mid-ulster.2016-05-05" ""] =
      [Ballot.mk "nia.mid-ulster.2016-05-05" "1,2,3,4",
       Ballot.mk "nia.north-antrim.2016-05-05" "5,6,7,8,9"]) :=
  ⟨by decide, by decide, by decide,
    match_multipage_two_ballots ninePagesExample midUlsterGroup northAntrimGroup
      (Ballot.mk "nia.mid-ulster.2016-05-05" "")
      (Ballot.mk "nia.north-antrim.2016-05-05" "")
      (by decide) (by decide) (by decide) rfl rfl⟩

/-! ## OCR Job Orchestrator

Modelled from the spec (§4.4) and the repository's own tests:
`sopn_parsing/helpers/extract_pages.py` (`TextractSOPNHelper`) is not among
the provided sources; its tests in
`src/ynr/apps/sopn_parsing/tests/test_sopn_helpers.py` are.
`start_detection()` records the returned job identifier;
`update_job_status()` polls, follows continuation tokens appending each
response's blocks to the accumulated block list, finalizes the status from
the last response, and is a no-op on an already-terminal job.  A sequence of
continuation-token responses is modelled as the list of responses obtained
by following the tokens, first poll first. -/

/-- The analysis status of a detection job. -/
inductive AnalysisStatus where
  | NOT_STARTED
  | IN_PROGRESS
  | SUCCEEDED
  | FAILED
deriving DecidableEq

/-- A raw OCR block, carrying its stable identifier. -/
structure Block where
  id : String
deriving DecidableEq

/-- One response page of `get_document_analysis`: the reported job status
and the blocks carried by this page of the paginated result. -/
structure AnalysisResponse where
  jobStatus : AnalysisStatus
  blocks : List Block
deriving DecidableEq

/-- The persisted `TextractResult` record of a detection job: job
identifier, analysis status, and the accumulated merged blocks. -/
structure TextractResult where
  job_id : String
  analysis_status : AnalysisStatus
  blocks : List Block
deriving DecidableEq

/-- `start_detection`: uploads the document and starts the external
analysis, creating the job record for the returned job identifier.  The
created record's analysis status is `NOT_STARTED`, as asserted by the
repository's `test_start_detection`. -/
def start_detection (jobId : String) : TextractResult :=
  { job_id := jobId, analysis_status := AnalysisStatus.NOT_STARTED, blocks := [] }

/-- A job is terminal once it has succeeded or failed. -/
def isTerminal : AnalysisStatus → Bool
  | AnalysisStatus.SUCCEEDED => true
  | AnalysisStatus.FAILED => true
  | _ => false

/-- Append each response's blocks, in order, onto the accumulated list. -/
def collectBlocks (acc : List Block) : List AnalysisResponse → List Block
  | [] => acc
  | r :: rest => collectBlocks (acc ++ r.blocks) rest

/-- `update_job_status`: a no-op on a terminal job; otherwise follows the
continuation-token chain `responses`, appending each response's blocks to
the job's accumulated block list (never replacing previously accumulated
blocks), and finalizes the status from the last response. -/
def update_job_status (responses : List AnalysisResponse) (tr : TextractResult) :
    TextractResult :=
  if isTerminal tr.analysis_status then tr
  else
    match responses.getLast? with
    | none => tr
    | some last =>
      { tr with
          analysis_status := last.jobStatus
          blocks := collectBlocks tr.blocks responses }

/-- The identifiers of a block list. -/
def blockIds (bs : List Block) : List String :=
  bs.map Block.id

theorem collectBlocks_eq : ∀ (rs : List AnalysisResponse) (acc : List Block),
    collectBlocks acc rs = acc ++ (rs.map AnalysisResponse.blocks).flatten
  | [], acc => by simp [collectBlocks]
  | r :: rest, acc => by
    rw [collectBlocks, collectBlocks_eq rest, List.map_cons, List.flatten_cons,
      List.append_assoc]

/-- C1 counterexample: immediately after `start_detection` the job's
analysis status is `NOT_STARTED`, not `IN_PROGRESS`, although the returned
job identifier has been recorded (the repository's `test_start_detection`
asserts exactly this status). -/
theorem start_detection_status_not_in_progress :
    (start_detection "1234").job_id = "1234" ∧
    (start_detection "1234").analysis_status ≠ AnalysisStatus.IN_PROGRESS :=
  ⟨rfl, by decide⟩

/-- C1 (amended): `start_detection` records the job identifier returned by
the external analysis service and leaves the job's analysis status at
`NOT_STARTED`; the status only advances when `update_job_status` polls. -/
theorem start_detection_records_job_id (jobId : String) :
    (start_detection jobId).job_id = jobId ∧
    (start_detection jobId).analysis_status = AnalysisStatus.NOT_STARTED :=
  ⟨rfl, rfl⟩

/-- C2: for a fresh job polled through a continuation-token chain, the
accumulated block collection only grows (the previous blocks are a prefix of
the new ones); the final blocks are exactly the responses' blocks appended
in order without replacement; assuming the service returns pairwise-distinct
block identifiers across the chain, no identifier appears twice and the
merged result is exactly the union of the blocks of all responses; and
re-polling once the job has reached a terminal status is a no-op. -/
theorem update_job_status_accumulates
    (tr : TextractResult) (responses retryResponses : List AnalysisResponse)
    (hstart : tr.analysis_status = AnalysisStatus.NOT_STARTED)
    (hempty : tr.blocks = [])
    (hnodup : (blockIds (responses.map AnalysisResponse.blocks).flatten).Nodup) :
    (tr.blocks <+: (update_job_status responses tr).blocks) ∧
    (update_job_status responses tr).blocks =
      (responses.map AnalysisResponse.blocks).flatten ∧
    (blockIds (update_job_status responses tr).blocks).Nodup ∧
    (∀ b : Block, b ∈ (update_job_status responses tr).blocks ↔
      ∃ r ∈ responses, b ∈ r.blocks) ∧
    (isTerminal (update_job_status responses tr).analysis_status = true →
      update_job_status retryResponses (update_job_status responses tr) =
        update_job_status responses tr) := by
  have hnt : isTerminal tr.analysis_status = false := by rw [hstart]; rfl
  rcases hL : responses.getLast? with _ | last
  · have hnil : responses = [] := List.getLast?_eq_none_iff.mp hL
    subst hnil
    have hupd : update_job_status [] tr = tr := by
      rw [update_job_status, if_neg (by rw [hnt]; exact Bool.false_ne_true)]
      rfl
    rw [hupd]
    refine ⟨List.prefix_refl _, by rw [hempty]; rfl, ?_, ?_, ?_⟩
    · rw [hempty]; exact List.nodup_nil
    · intro b
      rw [hempty]
      simp
    · intro habs
      rw [hstart] at habs
      exact Bool.noConfusion habs
  · have hupd : update_job_status responses tr =
        { tr with
            analysis_status := last.jobStatus
            blocks := collectBlocks tr.blocks responses } := by
      rw [update_job_status, if_neg (by rw [hnt]; exact Bool.false_ne_true), hL]
    have hblocks : (update_job_status responses tr).blocks =
        (responses.map AnalysisResponse.blocks).flatten := by
      rw [hupd]
      show collectBlocks tr.blocks responses = _
      rw [collectBlocks_eq, hempty, List.nil_append]
    refine ⟨?_, hblocks, ?_, ?_, ?_⟩
    · rw [hempty]; exact List.nil_prefix
    · rw [hblocks]; exact hnodup
    · intro b
      rw [hblocks]
      simp only [List.mem_flatten, List.mem_map]
      constructor
      · rintro ⟨bl, ⟨r, hr, rfl⟩, hb⟩
        exact ⟨r, hr, hb⟩
      · rintro ⟨r, hr, hb⟩
        exact ⟨r.blocks, ⟨r, hr, rfl⟩, hb⟩
    · intro hterm
      rw [update_job_status, if_pos hterm]

/-- Witness for C2: the continuation-token scenario of the repository's
`test_update_job_status_with_token` — a first response carrying block "baz"
with a continuation token and a second carrying "foo" and "Bar" — merged
into exactly ["baz", "foo", "Bar"] with status SUCCEEDED, after which a
further poll is a no-op. -/
theorem update_job_status_accumulates_witness :
    (start_detection "1234").analysis_status = AnalysisStatus.NOT_STARTED ∧
    (start_detection "1234").blocks = [] ∧
    (blockIds (([AnalysisResponse.mk AnalysisStatus.SUCCEEDED [Block.mk "baz"],
      AnalysisResponse.mk AnalysisStatus.SUCCEEDED [Block.mk "foo", Block.mk "Bar"]].map
        AnalysisResponse.blocks).flatten)).Nodup ∧
    ((start_detection "1234").blocks <+:
      (update_job_status
        [AnalysisResponse.mk AnalysisStatus.SUCCEEDED [Block.mk "baz"],
         AnalysisResponse.mk AnalysisStatus.SUCCEEDED [Block.mk "foo", Block.mk "Bar"]]
        (start_detection "1234")).blocks ∧
    (update_job_status
        [AnalysisResponse.mk AnalysisStatus.SUCCEEDED [Block.mk "baz"],
         AnalysisResponse.mk AnalysisStatus.SUCCEEDED [Block.mk "foo", Block.mk "Bar"]]
        (start_detection "1234")).blocks =
      (([AnalysisResponse.mk AnalysisStatus.SUCCEEDED [Block.mk "baz"],
         AnalysisResponse.mk AnalysisStatus.SUCCEEDED [Block.mk "foo", Block.mk "Bar"]].map
          AnalysisResponse.blocks).flatten) ∧
    (blockIds (update_job_status
        [AnalysisResponse.mk AnalysisStatus.SUCCEEDED [Block.mk "baz"],
         AnalysisResponse.mk AnalysisStatus.SUCCEEDED [Block.mk "foo", Block.mk "Bar"]]
        (start_detection "1234")).blocks).Nodup ∧
    (∀ b : Block, b ∈ (update_job_status
        [AnalysisResponse.mk AnalysisStatus.SUCCEEDED [Block.mk "baz"],
         AnalysisResponse.mk AnalysisStatus.SUCCEEDED [Block.mk "foo", Block.mk "Bar"]]
        (start_detection "1234")).blocks ↔
      ∃ r ∈ [AnalysisResponse.mk AnalysisStatus.SUCCEEDED [Block.mk "baz"],
             AnalysisResponse.mk AnalysisStatus.SUCCEEDED [Block.mk "foo", Block.mk "Bar"]],
        b ∈ r.blocks) ∧
    (isTerminal (update_job_status
        [AnalysisResponse.mk AnalysisStatus.SUCCEEDED [Block.mk "baz"],
         AnalysisResponse.mk AnalysisStatus.SUCCEEDED [Block.mk "foo", Block.mk "Bar"]]
        (start_detection "1234")).analysis_status = true →
      update_job_status [AnalysisResponse.mk AnalysisStatus.FAILED [Block.mk "zzz"]]
        (update_job_status
          [AnalysisResponse.mk AnalysisStatus.SUCCEEDED [Block.mk "baz"],
           AnalysisResponse.mk AnalysisStatus.SUCCEEDED [Block.mk "foo", Block.mk "Bar"]]
          (start_detection "1234")) =
        update_job_status
          [AnalysisResponse.mk AnalysisStatus.SUCCEEDED [Block.mk "baz"],
           AnalysisResponse.mk AnalysisStatus.SUCCEEDED [Block.mk "foo", Block.mk "Bar"]]
          (start_detection "1234"))) :=
  ⟨rfl, rfl, by decide,
    update_job_status_accumulates (start_detection "1234")
      [AnalysisResponse.mk AnalysisStatus.SUCCEEDED [Block.mk "baz"],
       AnalysisResponse.mk AnalysisStatus.SUCCEEDED [Block.mk "foo", Block.mk "Bar"]]
      [AnalysisResponse.mk AnalysisStatus.FAILED [Block.mk "zzz"]]
      rfl rfl (by decide)⟩

/-! ## Upload form validation (`official_documents/forms.py`)

`UploadDocumentForm` declares `uploaded_file` with
`FileExtensionValidator(allowed_extensions=["pdf", "docx"])` and a
`clean_uploaded_file` method that converts the upload via
`convert_sopn_to_pdf`, turning `PandocConversionError` into the validation
error `"File is invalid. Please convert to a PDF and retry"`.  Django runs
the field validators first and calls the `clean_<field>` method only when
they pass.  The converter itself (`sopn_parsing/helpers/convert_pdf.py`) is
not among the provided sources and is modelled from the spec (§6) as a
collaborator that either yields the canonical PDF or fails. -/

/-- An uploaded file as the form sees it: client-side name and content. -/
structure UploadedFile where
  name : String
  content : String
deriving DecidableEq

/-- Modelled from the spec: the outcome of the document-conversion
collaborator `convert_sopn_to_pdf` — the canonical-PDF file, or a
`PandocConversionError`. -/
inductive ConvertResult where
  | converted (f : UploadedFile)
  | pandocConversionError
deriving DecidableEq

/-- The lowercased extension of a file name, following the `pathlib` suffix
rule used by Django's `FileExtensionValidator`: the part after the last dot,
provided that dot is neither the first nor the last character of the name;
otherwise empty. -/
def fileExtensionChars (l : List Char) : List Char :=
  let after := l.reverse.takeWhile (fun c => c != '.')
  if 0 < after.length ∧ after.length + 1 < l.length then after.reverse.map Char.toLower
  else []

/-- The lowercased extension of a file name. -/
def fileExtension (name : String) : String :=
  String.mk (fileExtensionChars name.data)

/-- The extensions the form's `FileExtensionValidator` allows. -/
def allowed_extensions : List String :=
  ["pdf", "docx"]

/-- Whether the validator accepts the file name. -/
def extensionAllowed (name : String) : Bool :=
  allowed_extensions.contains (fileExtension name)

/-- `UploadDocumentForm.clean_uploaded_file`: attempt the conversion; a
`PandocConversionError` is caught and surfaced as a validation error asking
for re-upload as PDF; on success the cleaned value is the converted file. -/
def clean_uploaded_file (convert : UploadedFile → ConvertResult) (f : UploadedFile) :
    Except String UploadedFile :=
  match convert f with
  | ConvertResult.converted g => Except.ok g
  | ConvertResult.pandocConversionError =>
    Except.error "File is invalid. Please convert to a PDF and retry"

/-- Full validation of the `uploaded_file` field: Django first runs the
declared field validators (the extension check) and calls
`clean_uploaded_file` only when they pass, so an invalid extension fails
before conversion is attempted. -/
def validate_uploaded_file (convert : UploadedFile → ConvertResult) (f : UploadedFile) :
    Except String UploadedFile :=
  if extensionAllowed f.name then clean_uploaded_file convert f
  else Except.error "File extension not allowed"

/-- C8: a `PandocConversionError` during cleaning is caught and surfaced to
the uploader as the validation error asking for re-upload as PDF — the field
yields no cleaned value, so the upload is rejected and nothing is persisted;
when conversion succeeds, the cleaned field holds the converted file. -/
theorem clean_uploaded_file_handles_conversion
    (convert : UploadedFile → ConvertResult) (f : UploadedFile) :
    (convert f = ConvertResult.pandocConversionError →
      clean_uploaded_file convert f =
        Except.error "File is invalid. Please convert to a PDF and retry") ∧
    (∀ g, convert f = ConvertResult.converted g →
      clean_uploaded_file convert f = Except.ok g) := by
  constructor
  · intro h
    rw [clean_uploaded_file, h]
  · intro g h
    rw [clean_uploaded_file, h]

/-- A conversion stub that always fails, for the witnesses. -/
def convertAlwaysFails : UploadedFile → ConvertResult :=
  fun _ => ConvertResult.pandocConversionError

/-- A conversion stub that always produces a canonical PDF, for the
witnesses. -/
def convertToCanonical : UploadedFile → ConvertResult :=
  fun f => ConvertResult.converted (UploadedFile.mk "sopn.pdf" f.content)

/-- Witness for C8: a failing conversion is rejected with the re-upload
message; a succeeding conversion yields the converted file. -/
theorem clean_uploaded_file_handles_conversion_witness :
    (convertAlwaysFails (UploadedFile.mk "sopn.docx" "doc") =
        ConvertResult.pandocConversionError ∧
      clean_uploaded_file convertAlwaysFails (UploadedFile.mk "sopn.docx" "doc") =
        Except.error "File is invalid. Please convert to a PDF and retry") ∧
    (convertToCanonical (UploadedFile.mk "sopn.docx" "doc") =
        ConvertResult.converted (UploadedFile.mk "sopn.pdf" "doc") ∧
      clean_uploaded_file convertToCanonical (UploadedFile.mk "sopn.docx" "doc") =
        Except.ok (UploadedFile.mk "sopn.pdf" "doc")) :=
  ⟨⟨rfl, (clean_uploaded_file_handles_conversion convertAlwaysFails
      (UploadedFile.mk "sopn.docx" "doc")).1 rfl⟩,
   ⟨rfl, (clean_uploaded_file_handles_conversion convertToCanonical
      (UploadedFile.mk "sopn.docx" "doc")).2 (UploadedFile.mk "sopn.pdf" "doc") rfl⟩⟩

/-- C10: the upload form accepts exactly the extensions `pdf` and `docx`;
for any other extension validation fails before the conversion is even
consulted (the outcome is the same extension rejection whatever the
converter would do), while an allowed extension proceeds to the conversion
path. -/
theorem uploaded_file_extension_gate (f : UploadedFile)
    (convert convert2 : UploadedFile → ConvertResult) :
    (extensionAllowed f.name = true ↔
      (fileExtension f.name = "pdf" ∨ fileExtension f.name = "docx")) ∧
    (extensionAllowed f.name = false →
      validate_uploaded_file convert f = Except.error "File extension not allowed" ∧
      validate_uploaded_file convert f = validate_uploaded_file convert2 f) ∧
    (extensionAllowed f.name = true →
      validate_uploaded_file convert f = clean_uploaded_file convert f) := by
  refine ⟨?_, ?_, ?_⟩
  · rw [extensionAllowed, allowed_extensions]
    simp [List.contains_iff_exists_mem_beq]
  · intro h
    have hv : validate_uploaded_file convert f =
        Except.error "File extension not allowed" := by
      rw [validate_uploaded_file, if_neg (by rw [h]; exact Bool.false_ne_true)]
    have hv2 : validate_uploaded_file convert2 f =
        Except.error "File extension not allowed" := by
      rw [validate_uploaded_file, if_neg (by rw [h]; exact Bool.false_ne_true)]
    exact ⟨hv, by rw [hv, hv2]⟩
  · intro h
    rw [validate_uploaded_file, if_pos h]

/-- Witness for C10: `report.doc` is rejected whatever the converter does;
`sopn.pdf` proceeds to conversion. -/
theorem uploaded_file_extension_gate_witness :
    extensionAllowed (UploadedFile.mk "report.doc" "d").name = false ∧
    extensionAllowed (UploadedFile.mk "sopn.pdf" "d").name = true ∧
    (validate_uploaded_file convertAlwaysFails (UploadedFile.mk "report.doc" "d") =
        Except.error "File extension not allowed" ∧
      validate_uploaded_file convertAlwaysFails (UploadedFile.mk "report.doc" "d") =
        validate_uploaded_file convertToCanonical (UploadedFile.mk "report.doc" "d")) ∧
    validate_uploaded_file convertAlwaysFails (UploadedFile.mk "sopn.pdf" "d") =
      clean_uploaded_file convertAlwaysFails (UploadedFile.mk "sopn.pdf" "d") :=
  ⟨by decide, by decide,
    (uploaded_file_extension_gate (UploadedFile.mk "report.doc" "d")
      convertAlwaysFails convertToCanonical).2.1 (by decide),
    (uploaded_file_extension_gate (UploadedFile.mk "sopn.pdf" "d")
      convertAlwaysFails convertToCanonical).2.2 (by decide)⟩

/-! ## Bulk image-rotation command
(`moderation_queue/management/commands/moderation_queue_rotate_images.py`)

`Command.handle` iterates the queued images.  Each iteration opens the
stored image (`default_storage.open`, outside the `try`), runs the guarded
body (`json.loads` of the detection metadata, face lookup, rotation) inside
`try/except Exception` — a raised exception is written to stdout, sets
`any_failed`, and the loop continues — and then saves the item (`qi.save()`,
also outside the `try`).  After the loop, `CommandError` is raised iff
`any_failed`.  Exceptions from the open or save steps are not caught and
abort the run. -/

/-- Outcome of the guarded (`try`-block) body for one queued image. -/
inductive RotateOutcome where
  | rotated
  | noFaceDetails
  | failed (msg : String)
deriving DecidableEq

/-- `failed` outcomes set the command's `any_failed` flag; a missing face
detail list only writes a message. -/
def outcomeFailed : RotateOutcome → Bool
  | RotateOutcome.failed _ => true
  | _ => false

/-- One queued image as the command processes it: the exception (if any)
raised opening its stored file, the guarded body's outcome, and the
exception (if any) raised saving it. -/
structure QueuedImageRun where
  openError : Option String
  outcome : RotateOutcome
  saveError : Option String
deriving DecidableEq

/-- The command's loop: returns how many iterations completed, whether any
caught failure occurred, and the aborting uncaught exception if one
occurred.  Open/save exceptions abort; `try`-body exceptions are caught and
the loop continues. -/
def runRotateItems : List QueuedImageRun → Nat × Bool × Option String
  | [] => (0, false, none)
  | it :: rest =>
    match it.openError with
    | some e => (0, false, some e)
    | none =>
      let failedHere := outcomeFailed it.outcome
      match it.saveError with
      | some e => (0, failedHere, some e)
      | none =>
        let r := runRotateItems rest
        (r.1 + 1, failedHere || r.2.1, r.2.2)

/-- `Command.handle`: run the loop; an uncaught exception propagates;
otherwise raise `CommandError` iff any item failed inside its `try` block.
On success, returns the number of items processed. -/
def rotate_images_handle (items : List QueuedImageRun) : Except String Nat :=
  match runRotateItems items with
  | (_, _, some e) => Except.error e
  | (n, anyFailed, none) =>
    if anyFailed then Except.error "Broken images found (see above)"
    else Except.ok n

/-- C9 counterexample: an exception opening the first item's stored image —
raised outside the per-item `try` block — aborts the run before the second
item is processed (zero iterations complete), and the command fails with
that exception, not with the `CommandError` summary.  So an exception while
processing one item can stop the run, and the command can end in an error
with no item having "failed" in the collected sense. -/
theorem rotate_images_open_failure_aborts :
    rotate_images_handle
      [QueuedImageRun.mk (some "storage open failed") RotateOutcome.rotated none,
       QueuedImageRun.mk none RotateOutcome.rotated none] =
      Except.error "storage open failed" ∧
    (runRotateItems
      [QueuedImageRun.mk (some "storage open failed") RotateOutcome.rotated none,
       QueuedImageRun.mk none RotateOutcome.rotated none]).1 = 0 ∧
    "storage open failed" ≠ "Broken images found (see above)" := by
  refine ⟨rfl, rfl, by decide⟩

theorem runRotateItems_all_ok : ∀ (items : List QueuedImageRun),
    (∀ it ∈ items, it.openError = none) →
    (∀ it ∈ items, it.saveError = none) →
    runRotateItems items =
      (items.length, items.any (fun it => outcomeFailed it.outcome), none)
  | [], _, _ => rfl
  | it :: rest, hopen, hsave => by
    have ho := hopen it (List.mem_cons_self _ _)
    have hs := hsave it (List.mem_cons_self _ _)
    have ih := runRotateItems_all_ok rest
      (fun x hx => hopen x (List.mem_cons_of_mem _ hx))
      (fun x hx => hsave x (List.mem_cons_of_mem _ hx))
    rw [runRotateItems, ho, hs]
    simp only [ih, List.length_cons, List.any_cons]

/-- The existence of an in-`try` failure, as the `any_failed` flag sees it. -/
theorem outcomeFailed_iff (o : RotateOutcome) :
    outcomeFailed o = true ↔ ∃ msg, o = RotateOutcome.failed msg := by
  cases o <;> simp [outcomeFailed]

/-- C9 (amended): provided opening each stored image and saving each item
succeed (both happen outside the `try` block), an exception raised while
processing an item inside the `try` block does not stop the run — every item
is still processed — and the command terminates with `CommandError` if and
only if at least one item failed inside its `try` block.  (The unrestricted
claim is false: an open/save exception aborts the run, see the
counterexample.) -/
theorem rotate_images_continues_past_failures (items : List QueuedImageRun)
    (hopen : ∀ it ∈ items, it.openError = none)
    (hsave : ∀ it ∈ items, it.saveError = none) :
    (runRotateItems items).1 = items.length ∧
    (runRotateItems items).2.2 = none ∧
    (rotate_images_handle items = Except.error "Broken images found (see above)" ↔
      ∃ it ∈ items, ∃ msg, it.outcome = RotateOutcome.failed msg) ∧
    ((¬∃ it ∈ items, ∃ msg, it.outcome = RotateOutcome.failed msg) →
      rotate_images_handle items = Except.ok items.length) := by
  have hrun := runRotateItems_all_ok items hopen hsave
  have hex : items.any (fun it => outcomeFailed it.outcome) = true ↔
      ∃ it ∈ items, ∃ msg, it.outcome = RotateOutcome.failed msg := by
    rw [List.any_eq_true]
    constructor
    · rintro ⟨it, hit, hf⟩
      exact ⟨it, hit, (outcomeFailed_iff _).mp hf⟩
    · rintro ⟨it, hit, msg, hmsg⟩
      exact ⟨it, hit, (outcomeFailed_iff _).mpr ⟨msg, hmsg⟩⟩
  have hhandle : rotate_images_handle items =
      (if items.any (fun it => outcomeFailed it.outcome) then
        Except.error "Broken images found (see above)"
      else Except.ok items.length) := by
    rw [rotate_images_handle, hrun]
  refine ⟨by rw [hrun], by rw [hrun], ?_, ?_⟩
  · rw [hhandle]
    rcases Bool.eq_false_or_eq_true (items.any fun it => outcomeFailed it.outcome) with
      hany | hany
    · rw [if_pos hany]
      exact ⟨fun _ => hex.mp hany, fun _ => rfl⟩
    · rw [if_neg (by rw [hany]; exact Bool.false_ne_true)]
      constructor
      · intro habs
        exact absurd habs (by simp)
      · intro hP
        exact Bool.noConfusion ((hex.mpr hP).symm.trans hany)
  · intro hno
    rw [hhandle, if_neg (fun hany => hno (hex.mp hany))]

/-- Witness for C9 (amended): two items, the second failing inside its
`try` block — both are processed and the command ends in `CommandError`. -/
theorem rotate_images_continues_past_failures_witness :
    (∀ it ∈ [QueuedImageRun.mk none RotateOutcome.rotated none,
      QueuedImageRun.mk none (RotateOutcome.failed "boom") none],
      it.openError = none) ∧
    (∀ it ∈ [QueuedImageRun.mk none RotateOutcome.rotated none,
      QueuedImageRun.mk none (RotateOutcome.failed "boom") none],
      it.saveError = none) ∧
    ((runRotateItems
      [QueuedImageRun.mk none RotateOutcome.rotated none,
       QueuedImageRun.mk none (RotateOutcome.failed "boom") none]).1 =
      ([QueuedImageRun.mk none RotateOutcome.rotated none,
        QueuedImageRun.mk none (RotateOutcome.failed "boom") none] :
          List QueuedImageRun).length ∧
    (runRotateItems
      [QueuedImageRun.mk none RotateOutcome.rotated none,
       QueuedImageRun.mk none (RotateOutcome.failed "boom") none]).2.2 =
      none ∧
    (rotate_images_handle
      [QueuedImageRun.mk none RotateOutcome.rotated none,
       QueuedImageRun.mk none (RotateOutcome.failed "boom") none] =
        Except.error "Broken images found (see above)" ↔
      ∃ it ∈ [QueuedImageRun.mk none RotateOutcome.rotated none,
        QueuedImageRun.mk none (RotateOutcome.failed "boom") none],
        ∃ msg, it.outcome = RotateOutcome.failed msg) ∧
    ((¬∃ it ∈ [QueuedImageRun.mk none RotateOutcome.rotated none,
        QueuedImageRun.mk none (RotateOutcome.failed "boom") none],
        ∃ msg, it.outcome = RotateOutcome.failed msg) →
      rotate_images_handle
        [QueuedImageRun.mk none RotateOutcome.rotated none,
         QueuedImageRun.mk none (RotateOutcome.failed "boom") none] =
        Except.ok ([QueuedImageRun.mk none RotateOutcome.rotated none,
          QueuedImageRun.mk none (RotateOutcome.failed "boom") none] :
            List QueuedImageRun).length)) :=
  ⟨by decide, by decide,
    rotate_images_continues_past_failures
      [QueuedImageRun.mk none RotateOutcome.rotated none,
       QueuedImageRun.mk none (RotateOutcome.failed "boom") none]
      (by decide) (by decide)⟩

/-- Witness for C7 at a concrete empty page and a concrete near-empty page. -/
theorem pageHeading_empty_errors_blank_ok_witness :
    (Page.mk 1 []).fragments = [] ∧
    (Page.mk 1 [TextFragment.mk "a b" 0]).fragments ≠ [] ∧
    ((pageTokens (Page.mk 1 [TextFragment.mk "a b" 0])).filter nonTrivialToken).length <
      MIN_MEANINGFUL_TOKENS ∧
    (pageHeading (Page.mk 1 []) = Except.error NoTextInDocumentError.noTextInDocument ∧
      page_is_blank (Page.mk 1 [TextFragment.mk "a b" 0]) = true ∧
      ∃ h, pageHeading (Page.mk 1 [TextFragment.mk "a b" 0]) = Except.ok h) :=
  ⟨by decide, by decide, by decide,
    pageHeading_empty_errors_blank_ok _ _ (by decide) (by decide) (by decide)⟩

end YNR
